import Mathlib

/-!
Shallow embedding of the `viasnake/arbiter` event-decision pipeline
(Go sources: `internal/domain/types.go`, `internal/store/memory.go`,
`internal/gate`, `internal/planner`, `internal/authz`, `internal/audit`,
`internal/app/service.go`), together with theorems checking the
natural-language specification of the repository against the code.

Machine integers are modelled as `Nat`/`Int` with explicit reduction
modulo `2^w` where Go wraps (`uint64` arithmetic in FNV-1a, `uint32`
arithmetic in SHA-256).  Go `time.Time` values are modelled as `Int`
milliseconds, with `0` encoding Go's zero time (`time.Time{}.IsZero()`).
Go maps are modelled as association lists (first binding wins, insert
replaces), which matches the per-key read/replace usage in the source.
-/

namespace Arbiter

/-! ### Bytes, hex, and hashes (Go `crypto/sha256`, `hash/fnv`, `encoding/hex`) -/

/-- UTF-8 encoding of one code point, as Go produces for `[]byte(string)`. -/
def utf8Char (c : Char) : List Nat :=
  let n := c.toNat
  if n < 0x80 then [n]
  else if n < 0x800 then
    [0xC0 ||| (n >>> 6), 0x80 ||| (n % 64)]
  else if n < 0x10000 then
    [0xE0 ||| (n >>> 12), 0x80 ||| ((n >>> 6) % 64), 0x80 ||| (n % 64)]
  else
    [0xF0 ||| (n >>> 18), 0x80 ||| ((n >>> 12) % 64), 0x80 ||| ((n >>> 6) % 64),
      0x80 ||| (n % 64)]

/-- The bytes of a Go string (`[]byte(s)`): UTF-8 encoding. -/
def utf8Bytes (s : String) : List Nat :=
  s.data.flatMap utf8Char

/-- The 64-bit FNV-1a hash of a byte list (Go `fnv.New64a().Write`), `uint64` arithmetic. -/
def fnv1a64 (bytes : List Nat) : Nat :=
  bytes.foldl (fun h b => ((h ^^^ b) * 1099511628211) % 2 ^ 64) 14695981039346656037

/-- Lower-case hex digit. -/
def hexDigit (n : Nat) : Char :=
  if n < 10 then Char.ofNat (48 + n) else Char.ofNat (87 + n)

/-- Lower-case hex of one byte, two digits (Go `encoding/hex`). -/
def hexByte (b : Nat) : List Char :=
  [hexDigit ((b / 16) % 16), hexDigit (b % 16)]

/-- Go `hex.EncodeToString` over a byte list. -/
def hexOfBytes (bs : List Nat) : String :=
  ⟨bs.flatMap hexByte⟩

/-- A 32-bit right rotation on a `uint32` value held in a `Nat`. -/
def rotr32 (n x : Nat) : Nat :=
  ((x >>> n) ||| (x <<< (32 - n))) % 2 ^ 32

/-- SHA-256 round constants (FIPS 180-4), written in decimal. -/
def shaK : List Nat :=
  [1116352408, 1899447441, 3049323471, 3921009573, 961987163,
   1508970993, 2453635748, 2870763221, 3624381080, 310598401,
   607225278, 1426881987, 1925078388, 2162078206, 2614888103,
   3248222580, 3835390401, 4022224774, 264347078, 604807628,
   770255983, 1249150122, 1555081692, 1996064986, 2554220882,
   2821834349, 2952996808, 3210313671, 3336571891, 3584528711,
   113926993, 338241895, 666307205, 773529912, 1294757372,
   1396182291, 1695183700, 1986661051, 2177026350, 2456956037,
   2730485921, 2820302411, 3259730800, 3345764771, 3516065817,
   3600352804, 4094571909, 275423344, 430227734, 506948616,
   659060556, 883997877, 958139571, 1322822218, 1537002063,
   1747873779, 1955562222, 2024104815, 2227730452, 2361852424,
   2428436474, 2756734187, 3204031479, 3329325298]

/-- SHA-256 initial hash values (FIPS 180-4), written in decimal. -/
def shaH0 : List Nat :=
  [1779033703, 3144134277, 1013904242, 2773480762,
   1359893119, 2600822924, 528734635, 1541459225]

/-- Big-endian 8-byte encoding of a length in bits. -/
def be64 (n : Nat) : List Nat :=
  [(n >>> 56) % 256, (n >>> 48) % 256, (n >>> 40) % 256, (n >>> 32) % 256,
   (n >>> 24) % 256, (n >>> 16) % 256, (n >>> 8) % 256, n % 256]

/-- Big-endian 4-byte encoding of a 32-bit word. -/
def be32 (n : Nat) : List Nat :=
  [(n >>> 24) % 256, (n >>> 16) % 256, (n >>> 8) % 256, n % 256]

/-- SHA-256 message padding: `0x80`, zeros, then the 64-bit bit length. -/
def shaPad (msg : List Nat) : List Nat :=
  let L := msg.length
  let zeros := (119 - (L % 64)) % 64
  msg ++ [0x80] ++ List.replicate zeros 0 ++ be64 (L * 8)

/-- Split a list into 64-byte chunks; `fuel` bounds the recursion depth
(structural recursion so that the kernel can evaluate it). -/
def chunksGo : Nat → List Nat → List (List Nat)
  | _, [] => []
  | 0, _ :: _ => []
  | fuel + 1, a :: l => (a :: l).take 64 :: chunksGo fuel ((a :: l).drop 64)

/-- Split a padded message into 64-byte chunks. -/
def chunks64 (l : List Nat) : List (List Nat) :=
  chunksGo l.length l

/-- The 16 initial 32-bit big-endian words of a 64-byte chunk. -/
def wordsOfChunk (c : List Nat) : List Nat :=
  (List.range 16).map fun i =>
    (c.getD (4 * i) 0) <<< 24 + (c.getD (4 * i + 1) 0) <<< 16 +
      (c.getD (4 * i + 2) 0) <<< 8 + c.getD (4 * i + 3) 0

/-- One message-schedule extension step (list holds words `0..length-1`). -/
def scheduleStep (w : List Nat) : List Nat :=
  let i := w.length
  let w15 := w.getD (i - 15) 0
  let w2 := w.getD (i - 2) 0
  let s0 := (rotr32 7 w15) ^^^ (rotr32 18 w15) ^^^ (w15 >>> 3)
  let s1 := (rotr32 17 w2) ^^^ (rotr32 19 w2) ^^^ (w2 >>> 10)
  w ++ [(w.getD (i - 16) 0 + s0 + w.getD (i - 7) 0 + s1) % 2 ^ 32]

/-- Full 64-word message schedule of one chunk. -/
def schedule (c : List Nat) : List Nat :=
  (List.range 48).foldl (fun w _ => scheduleStep w) (wordsOfChunk c)

/-- One SHA-256 compression round over working state `[a,b,c,d,e,f,g,h]`. -/
def shaRound (st : List Nat) (kw : Nat × Nat) : List Nat :=
  match st with
  | [a, b, c, d, e, f, g, h] =>
    let S1 := (rotr32 6 e) ^^^ (rotr32 11 e) ^^^ (rotr32 25 e)
    let ch := (e &&& f) ^^^ ((0xffffffff ^^^ e) &&& g)
    let t1 := (h + S1 + ch + kw.1 + kw.2) % 2 ^ 32
    let S0 := (rotr32 2 a) ^^^ (rotr32 13 a) ^^^ (rotr32 22 a)
    let mj := (a &&& b) ^^^ (a &&& c) ^^^ (b &&& c)
    let t2 := (S0 + mj) % 2 ^ 32
    [(t1 + t2) % 2 ^ 32, a, b, c, ((d + t1) % 2 ^ 32), e, f, g]
  | other => other

/-- Process one chunk: compress and add into the running hash values. -/
def shaChunk (hs : List Nat) (c : List Nat) : List Nat :=
  let out := (shaK.zip (schedule c)).foldl shaRound hs
  (hs.zip out).map fun p => (p.1 + p.2) % 2 ^ 32

/-- SHA-256 digest (32 bytes) of a byte list (Go `sha256.Sum256`). -/
def sha256Bytes (msg : List Nat) : List Nat :=
  ((chunks64 (shaPad msg)).foldl shaChunk shaH0).flatMap be32

/-- SHA-256 of a Go string, as bytes. -/
def sha256String (s : String) : List Nat :=
  sha256Bytes (utf8Bytes s)

/-! ### Go string helpers (`strings.TrimSpace`, `strings.ToLower`, `strings.Contains`) -/

/-- Go `unicode.IsSpace`: the White_Space code points. -/
def goIsSpace (c : Char) : Bool :=
  let n := c.toNat
  n = 0x09 || n = 0x0A || n = 0x0B || n = 0x0C || n = 0x0D || n = 0x20 ||
    n = 0x85 || n = 0xA0 || n = 0x1680 || (0x2000 ≤ n && n ≤ 0x200A) ||
    n = 0x2028 || n = 0x2029 || n = 0x202F || n = 0x205F || n = 0x3000

/-- Go `strings.TrimSpace`: drop leading and trailing white space. -/
def TrimSpace (s : String) : String :=
  ⟨((s.data.dropWhile goIsSpace).reverse.dropWhile goIsSpace).reverse⟩

/-- Lower-casing of one character.  The repository only ever searches for the
ASCII needle `"@arbiter"`, so the ASCII case mapping is the relevant part of
Go `unicode.ToLower`; other characters are kept unchanged. -/
def toLowerChar (c : Char) : Char :=
  if 65 ≤ c.toNat && c.toNat ≤ 90 then Char.ofNat (c.toNat + 32) else c

/-- Go `strings.ToLower`. -/
def ToLower (s : String) : String :=
  ⟨s.data.map toLowerChar⟩

/-- Substring test on character lists (structural recursion on the haystack). -/
def listContains (needle : List Char) : List Char → Bool
  | [] => needle.isEmpty
  | a :: t => needle.isPrefixOf (a :: t) || listContains needle t

/-- Go `strings.Contains s sub`. -/
def Contains (s sub : String) : Bool :=
  listContains sub.data s.data

/-! ### Domain types (`internal/domain/types.go`)

Go `time` values are modelled as follows: an `Event` carries `tsValid`
(whether `time.Parse(time.RFC3339, e.TS)` succeeds) and `tsMs` (the parsed
instant in integer milliseconds, with `0` encoding Go's zero time, which is
what the valid RFC3339 string `"0001-01-01T00:00:00Z"` parses to).  The
opaque `Extensions`/`Claims` maps are never read by the modelled code and
are omitted. -/

def ContractVersion : Int := 0

def ActionDoNothing : String := "do_nothing"

def ActionRequestGeneration : String := "request_generation"

def ActionSendMessage : String := "send_message"

def ActionSendReply : String := "send_reply"

structure Actor where
  type : String
  id : String
  roles : List String
deriving DecidableEq, Repr

structure EventContent where
  type : String
  text : String
  replyTo : Option String
deriving DecidableEq, Repr

structure Event where
  v : Int
  eventID : String
  tenantID : String
  source : String
  roomID : String
  actor : Actor
  content : EventContent
  tsValid : Bool
  tsMs : Int
deriving DecidableEq, Repr

/-- Go `Event.Validate` (types.go lines 46-77), checks in source order. -/
def Event.Validate (e : Event) : Except String Unit :=
  if e.v ≠ ContractVersion then .error "v must be 0"
  else if TrimSpace e.eventID = "" then .error "event_id is required"
  else if TrimSpace e.tenantID = "" then .error "tenant_id is required"
  else if TrimSpace e.source = "" then .error "source is required"
  else if TrimSpace e.roomID = "" then .error "room_id is required"
  else if TrimSpace e.actor.id = "" then .error "actor.id is required"
  else if ¬ (e.actor.type = "human" ∨ e.actor.type = "service" ∨
      e.actor.type = "system") then .error "actor.type is invalid"
  else if e.content.type ≠ "text" then .error "content.type must be text"
  else if ¬ e.tsValid then .error "ts must be RFC3339"
  else .ok ()

/-- Go `Event.ParsedTS`: the parsed timestamp, Go zero time (here `0`) on
parse failure. -/
def Event.ParsedTS (e : Event) : Int :=
  if e.tsValid then e.tsMs else 0

/-- Go map values in `Action.Target`/`Action.Payload` are all strings in
this codebase; model `map[string]interface{}` as a string association list. -/
structure Action where
  type : String
  actionID : String
  target : List (String × String)
  payload : List (String × String)
deriving DecidableEq, Repr

structure PolicyDecision where
  stage : String
  result : String
  reasonCode : String
deriving DecidableEq, Repr

/-- Go `domain.ResponsePlan` (types.go lines 94-102).  The `Debug` map is never
assigned anywhere in the source and is omitted. -/
structure ResponsePlan where
  v : Int
  planID : String
  tenantID : String
  roomID : String
  actions : List Action
  policyDecisions : List PolicyDecision
deriving DecidableEq, Repr

structure GenerationResult where
  v : Int
  planID : String
  actionID : String
  tenantID : String
  text : String
  traceID : Option String
deriving DecidableEq, Repr

/-- Go `NewPlanID`: `"plan_" + hex(sha256(tenantID ":" eventID)[:8])`. -/
def NewPlanID (tenantID eventID : String) : String :=
  "plan_" ++ hexOfBytes ((sha256String (tenantID ++ ":" ++ eventID)).take 8)

/-- Go `NewActionID`: `"act_" + hex(sha256(planID ":" actionType ":" index)[:8])`. -/
def NewActionID (planID actionType : String) (index : Int) : String :=
  "act_" ++ hexOfBytes
    ((sha256String (planID ++ ":" ++ actionType ++ ":" ++ toString index)).take 8)

/-- Go `DoNothingPlan` (types.go lines 145-161). -/
def DoNothingPlan (tenantID roomID eventID reasonCode : String) : ResponsePlan :=
  let planID := NewPlanID tenantID eventID
  let action : Action :=
    { type := ActionDoNothing
      actionID := NewActionID planID ActionDoNothing 0
      target := []
      payload := [("reason_code", reasonCode)] }
  { v := ContractVersion
    planID := planID
    tenantID := tenantID
    roomID := roomID
    actions := [action]
    policyDecisions := [] }

/-! ### In-memory store (`internal/store/memory.go`)

Go maps are modelled as association lists with unique keys: lookup takes
the first binding, insert replaces in place.  Methods that mutate through
the store's mutex return the updated store. -/

/-- Association-list model of a Go map. -/
abbrev AList (α β : Type) := List (α × β)

def alistGet [DecidableEq α] : AList α β → α → Option β
  | [], _ => none
  | (k, v) :: t, k' => if k = k' then some v else alistGet t k'

def alistPut [DecidableEq α] : AList α β → α → β → AList α β
  | [], k, v => [(k, v)]
  | (k0, v0) :: t, k, v =>
    if k0 = k then (k, v) :: t else (k0, v0) :: alistPut t k v

def alistDel [DecidableEq α] : AList α β → α → AList α β
  | [], _ => []
  | (k0, v0) :: t, k => if k0 = k then t else (k0, v0) :: alistDel t k

structure RoomState where
  Generating : Bool
  PendingQueueSize : Int
  LastSendAt : Int
deriving DecidableEq, Repr

structure PendingGeneration where
  TenantID : String
  RoomID : String
  PlanID : String
  ActionID : String
  Kind : String
  ReplyTo : Option String
deriving DecidableEq, Repr

structure MemoryStore where
  idempotency : AList String ResponsePlan
  rooms : AList String RoomState
  pending : AList String PendingGeneration
  tenantRate : AList String (AList Int Int)
deriving DecidableEq, Repr

def NewMemoryStore : MemoryStore :=
  { idempotency := [], rooms := [], pending := [], tenantRate := [] }

def eventKey (tenantID eventID : String) : String :=
  tenantID ++ ":" ++ eventID

def roomKey (tenantID roomID : String) : String :=
  tenantID ++ ":" ++ roomID

def pendingKey (tenantID actionID : String) : String :=
  tenantID ++ ":" ++ actionID

def MemoryStore.GetIdempotency (s : MemoryStore) (tenantID eventID : String) :
    Option ResponsePlan :=
  alistGet s.idempotency (eventKey tenantID eventID)

def MemoryStore.PutIdempotency (s : MemoryStore) (tenantID eventID : String)
    (plan : ResponsePlan) : MemoryStore :=
  { s with idempotency := alistPut s.idempotency (eventKey tenantID eventID) plan }

/-- Go `GetRoomState` lazily creates the room (memory.go lines 68-78), so it
returns the room together with the possibly-extended store. -/
def MemoryStore.GetRoomState (s : MemoryStore) (tenantID roomID : String) :
    RoomState × MemoryStore :=
  let key := roomKey tenantID roomID
  match alistGet s.rooms key with
  | some room => (room, s)
  | none =>
    let room : RoomState := { Generating := false, PendingQueueSize := 0, LastSendAt := 0 }
    (room, { s with rooms := alistPut s.rooms key room })

/-- Go `PutPendingGeneration` (memory.go lines 80-94). -/
def MemoryStore.PutPendingGeneration (s : MemoryStore) (p : PendingGeneration) :
    MemoryStore :=
  let rKey := roomKey p.TenantID p.RoomID
  let room := (alistGet s.rooms rKey).getD
    { Generating := false, PendingQueueSize := 0, LastSendAt := 0 }
  let room' := { room with Generating := true, PendingQueueSize := room.PendingQueueSize + 1 }
  { s with
    rooms := alistPut s.rooms rKey room'
    pending := alistPut s.pending (pendingKey p.TenantID p.ActionID) p }

/-- Go `ConsumePendingGeneration` (memory.go lines 96-122). -/
def MemoryStore.ConsumePendingGeneration (s : MemoryStore)
    (tenantID actionID : String) (at_ : Int) :
    Option PendingGeneration × MemoryStore :=
  let key := pendingKey tenantID actionID
  match alistGet s.pending key with
  | none => (none, s)
  | some p =>
    let s1 := { s with pending := alistDel s.pending key }
    let rKey := roomKey tenantID p.RoomID
    let room : RoomState := (alistGet s1.rooms rKey).getD
      { Generating := false, PendingQueueSize := 0, LastSendAt := 0 }
    let q : Int := if room.PendingQueueSize > 0 then room.PendingQueueSize - 1
      else room.PendingQueueSize
    let g := if q = 0 then false else room.Generating
    let room' : RoomState := { Generating := g, PendingQueueSize := q, LastSendAt := at_ }
    (some p, { s1 with rooms := alistPut s1.rooms rKey room' })

def MemoryStore.TenantRateCount (s : MemoryStore) (tenantID : String)
    (minuteBucket : Int) : Int :=
  match alistGet s.tenantRate tenantID with
  | none => 0
  | some byMin => (alistGet byMin minuteBucket).getD 0

/-- Go `IncrementTenantRate` (memory.go lines 135-152), including the
best-effort cleanup that deletes buckets older than `minuteBucket - 5`. -/
def MemoryStore.IncrementTenantRate (s : MemoryStore) (tenantID : String)
    (minuteBucket : Int) : MemoryStore :=
  let byMin := (alistGet s.tenantRate tenantID).getD []
  let byMin1 := alistPut byMin minuteBucket
    ((alistGet byMin minuteBucket).getD 0 + 1)
  let byMin2 := byMin1.filter fun b => decide (minuteBucket - 5 ≤ b.1)
  { s with tenantRate := alistPut s.tenantRate tenantID byMin2 }

/-! ### Gate (`internal/gate`, `src/unnamed/part_006`) -/

structure GateConfig where
  CooldownMS : Int
  MaxQueue : Int
  TenantRateLimitPerMin : Int
deriving DecidableEq, Repr

structure GateResult where
  Allowed : Bool
  ReasonCode : String
deriving DecidableEq, Repr

/-- Go `Evaluator.Evaluate` (part_006 lines 23-44): pure function of the room
state, the event timestamp and the tenant count — it takes no clock. -/
def Evaluate (cfg : GateConfig) (room : RoomState) (eventTS : Int)
    (tenantCount : Int) : GateResult :=
  if room.Generating then { Allowed := false, ReasonCode := "gate_generating_lock" }
  else if cfg.CooldownMS > 0 ∧ room.LastSendAt ≠ 0 ∧
      eventTS < room.LastSendAt + cfg.CooldownMS then
    { Allowed := false, ReasonCode := "gate_cooldown" }
  else if cfg.MaxQueue > 0 ∧ room.PendingQueueSize ≥ cfg.MaxQueue then
    { Allowed := false, ReasonCode := "gate_backpressure" }
  else if cfg.TenantRateLimitPerMin > 0 ∧ tenantCount ≥ cfg.TenantRateLimitPerMin then
    { Allowed := false, ReasonCode := "gate_tenant_rate_limit" }
  else { Allowed := true, ReasonCode := "" }

/-! ### Planner (`internal/planner`, in `src/internal/audit/jsonl_test.go`
lines 105-173 of the concatenated sources) -/

inductive Intent where
  | IGNORE
  | REPLY
  | MESSAGE
deriving DecidableEq, Repr

/-- Go's `Intent` is a string type; its value as a string. -/
def Intent.str : Intent → String
  | .IGNORE => "IGNORE"
  | .REPLY => "REPLY"
  | .MESSAGE => "MESSAGE"

/-- Go `config.PlannerConfig`.  `ReplyProbability` is a Go `float64`; it is
modelled as a rational.  Every probability value the planner derives from an
event is of the form `k/10000` with `0 ≤ k < 10000`, so the comparison is
exact for configuration values that are themselves exactly representable. -/
structure PlannerConfig where
  ReplyPolicy : String
  ReplyProbability : ℚ
deriving DecidableEq, Repr

/-- Go `seededProbability`: FNV-1a of the event id, reduced mod 10000, over 10000. -/
def seededProbability (eventID : String) : ℚ :=
  ((fnv1a64 (utf8Bytes eventID) % 10000 : Nat) : ℚ) / 10000

/-- Go `isMentioned`: case-insensitive search for `"@arbiter"`. -/
def isMentioned (text : String) : Bool :=
  Contains (ToLower text) "@arbiter"

/-- The policy switch of `Engine.Decide` (everything after the reply-to
check). -/
def decideByPolicy (cfg : PlannerConfig) (ev : Event) : Intent :=
  let mentioned := isMentioned ev.content.text
  if cfg.ReplyPolicy = "all" then .MESSAGE
  else if cfg.ReplyPolicy = "reply_only" then
    (if mentioned then .REPLY else .IGNORE)
  else if cfg.ReplyPolicy = "mention_first" then
    (if mentioned then .REPLY
     else if seededProbability ev.eventID < cfg.ReplyProbability then .MESSAGE
     else .IGNORE)
  else if cfg.ReplyPolicy = "probabilistic" then
    (if seededProbability ev.eventID < cfg.ReplyProbability then .MESSAGE
     else .IGNORE)
  else .IGNORE

/-- Go `Engine.Decide`: reply-to short-circuit, then the policy switch. -/
def Decide (cfg : PlannerConfig) (ev : Event) : Intent :=
  match ev.content.replyTo with
  | some r => if TrimSpace r = "" then decideByPolicy cfg ev else .REPLY
  | none => decideByPolicy cfg ev

/-! ### Authorization (`internal/authz`, `src/unnamed/part_008`) -/

structure Decision where
  Allow : Bool
  ReasonCode : String
  PolicyVer : String
  DecisionSrc : String
deriving DecidableEq, Repr

/-- Go `BuiltinAllowAll.Authorize` (part_008 lines 28-35). -/
def builtinAuthorize (_ev : Event) : Decision :=
  { Allow := true, ReasonCode := "builtin_allow_all", PolicyVer := "builtin-v0",
    DecisionSrc := "builtin" }

/-- Go `responsePayload` (part_008 lines 53-59). -/
structure RespPayload where
  v : Int
  decision : String
  reasonCode : String
  policyVersion : String
  ttlMS : Int
deriving DecidableEq, Repr

/-- What one HTTP attempt of `ExternalHTTP.Authorize` observes: a transport
error from `client.Do`, or a status code together with the parse result of
the body (`none` when `json.Decode` fails). -/
inductive HTTPOutcome where
  | transportError
  | response (statusCode : Nat) (parsed : Option RespPayload)
deriving DecidableEq, Repr

/-- Go `ExternalHTTP.applyFailureMode` (part_008 lines 139-152); the
`fallback_builtin` arm calls the built-in provider on a zero `Event` and
overwrites its reason code. -/
def applyFailureMode (failMode : String) : Decision :=
  if failMode = "allow" then
    { Allow := true, ReasonCode := "authz_error_allow", PolicyVer := "external-error",
      DecisionSrc := "external_http" }
  else if failMode = "fallback_builtin" then
    { builtinAuthorize
        { v := 0, eventID := "", tenantID := "", source := "", roomID := ""
          actor := { type := "", id := "", roles := [] }
          content := { type := "", text := "", replyTo := none }
          tsValid := false, tsMs := 0 } with
      ReasonCode := "authz_error_fallback_builtin" }
  else
    { Allow := false, ReasonCode := "authz_error_deny", PolicyVer := "external-error",
      DecisionSrc := "external_http" }

/-- The decision `ExternalHTTP.Authorize` (part_008 lines 75-137) derives
from one attempt's outcome.  Marshalling the request payload and building
the request cannot fail for the values the service passes, so those error
arms (lines 96-104) are unreachable and not modelled. -/
def externalAuthorize (failMode : String) (outcome : HTTPOutcome) : Decision :=
  match outcome with
  | .transportError => applyFailureMode failMode
  | .response statusCode parsed =>
    if statusCode < 200 ∨ 300 ≤ statusCode then applyFailureMode failMode
    else
      match parsed with
      | none => applyFailureMode failMode
      | some out =>
        let allow := out.decision = "allow"
        let reason :=
          if out.reasonCode = "" then (if allow then "authz_allow" else "authz_deny")
          else out.reasonCode
        { Allow := allow, ReasonCode := reason, PolicyVer := out.policyVersion,
          DecisionSrc := "external_http" }

/-- One `ExternalHTTP.Authorize` call issues exactly one HTTP attempt
(a single `client.Do`, part_008 line 107; there is no retry loop in the
function body).  Given the outcomes that successive attempts would observe,
the call consults only the first; the second component is the number of
attempts made. -/
def externalAuthorizeCall (failMode : String) (outcomes : List HTTPOutcome) :
    Decision × Nat :=
  (externalAuthorize failMode (outcomes.headD .transportError), 1)

/-! ### Audit (`internal/audit`, in `src/internal/audit/jsonl_test.go`
lines 38-104 of the concatenated sources) -/

/-- Go `audit.Record`: exactly the fields of the Go struct (no hash fields). -/
structure Record where
  AuditID : String
  TenantID : String
  CorrelationID : String
  Action : String
  Result : String
  ReasonCode : String
  TS : String
  PlanID : String
deriving DecidableEq, Repr

/-- Go `encoding/json` escaping of one character inside a string literal
(including the default HTML escaping of `<`, `>`, `&` and of U+2028/U+2029). -/
def escChar (c : Char) : List Char :=
  if c = '"' then ['\\', '"']
  else if c = '\\' then ['\\', '\\']
  else if c = '\n' then ['\\', 'n']
  else if c = '\r' then ['\\', 'r']
  else if c = '\t' then ['\\', 't']
  else if c.toNat < 0x20 || c = '<' || c = '>' || c = '&' then
    ['\\', 'u', '0', '0', hexDigit ((c.toNat / 16) % 16), hexDigit (c.toNat % 16)]
  else if c.toNat = 0x2028 || c.toNat = 0x2029 then
    ['\\', 'u', '2', '0', '2', hexDigit (c.toNat % 16)]
  else [c]

/-- A JSON string literal as Go `json.Marshal` produces it. -/
def strLit (s : String) : String :=
  "\"" ++ (⟨s.data.flatMap escChar⟩ : String) ++ "\""

/-- Go `json.Marshal` of an `audit.Record`: fields in struct order with their
tags, `plan_id` carrying `omitempty`. -/
def recordJSON (r : Record) : String :=
  "\x7b" ++ strLit "audit_id" ++ ":" ++ strLit r.AuditID ++
    "," ++ strLit "tenant_id" ++ ":" ++ strLit r.TenantID ++
    "," ++ strLit "correlation_id" ++ ":" ++ strLit r.CorrelationID ++
    "," ++ strLit "action" ++ ":" ++ strLit r.Action ++
    "," ++ strLit "result" ++ ":" ++ strLit r.Result ++
    "," ++ strLit "reason_code" ++ ":" ++ strLit r.ReasonCode ++
    "," ++ strLit "ts" ++ ":" ++ strLit r.TS ++
    (if r.PlanID = "" then "" else "," ++ strLit "plan_id" ++ ":" ++ strLit r.PlanID) ++
    "\x7d"

/-- Go `JSONLLogger.Append` (jsonl_test.go lines 78-93 of the concatenated
sources): default the `ts` field to the current time when empty, marshal,
write one line.  `log` is the list of lines already in the file and `now`
the formatted wall-clock time. -/
def JSONLAppend (log : List String) (now : String) (record : Record) : List String :=
  let record := if record.TS = "" then { record with TS := now } else record
  log ++ [recordJSON record]

/-! ### Pipeline orchestrator (`internal/app/service.go`) -/

instance [DecidableEq ε] [DecidableEq α] : DecidableEq (Except ε α)
  | .error x, .error y =>
    if h : x = y then .isTrue (congrArg Except.error h)
    else .isFalse fun hh => h (Except.error.inj hh)
  | .error _, .ok _ => .isFalse fun hh => Except.noConfusion hh
  | .ok _, .error _ => .isFalse fun hh => Except.noConfusion hh
  | .ok x, .ok y =>
    if h : x = y then .isTrue (congrArg Except.ok h)
    else .isFalse fun hh => h (Except.ok.inj hh)

/-- Which return of `Service.ProcessEvent` a call took (instrumentation of
the embedding; the tags correspond one-to-one to the `return` statements of
service.go). -/
inductive PathTag where
  | validationError
  | idempotencyHit
  | gateDeny
  | authzDeny
  | accepted
deriving DecidableEq, Repr

/-- Instrumentation of one `ProcessEvent` call: which path it took, whether
`s.authz.Authorize` was invoked, and whether `s.store.IncrementTenantRate`
was executed. -/
structure PTrace where
  path : PathTag
  authzInvoked : Bool
  incremented : Bool
deriving DecidableEq, Repr

/-- The state a `Service` owns: its `MemoryStore` and the audit sink's
contents (the appended records). -/
structure ServiceState where
  store : MemoryStore
  auditLog : List Record
deriving DecidableEq, Repr

structure PEOut where
  result : Except String ResponsePlan
  state : ServiceState
  trace : PTrace
deriving DecidableEq, Repr

/-- The audit sink: `s.audit.Append` succeeds (and records) iff `auditOk`;
service.go discards the returned error (`_ =`) in every call site of
`ProcessEvent`. -/
def appendAudit (auditOk : Bool) (log : List Record) (r : Record) : List Record :=
  if auditOk then log ++ [r] else log

/-- service.go lines 58-61: `eventTime := ev.ParsedTS(); if eventTime.IsZero()
{ eventTime = s.nowFn() }`. -/
def eventTimeOf (now : Int) (ev : Event) : Int :=
  let t := ev.ParsedTS
  if t = 0 then now else t

/-- service.go line 65: `eventTime.Unix() / 60`.  `Unix()` floors the instant
to seconds; Go's integer `/` truncates toward zero. -/
def minuteBucketOf (eventTime : Int) : Int :=
  Int.tdiv (Int.fdiv eventTime 1000) 60

/-- The gate result `ProcessEvent` computes for an event (service.go lines
58-67), as a function of the pre-call state. -/
def gateResultOf (gcfg : GateConfig) (st : ServiceState) (now : Int) (ev : Event) :
    GateResult :=
  let eventTime := eventTimeOf now ev
  let roomAnd := st.store.GetRoomState ev.tenantID ev.roomID
  Evaluate gcfg roomAnd.1 eventTime
    (roomAnd.2.TenantRateCount ev.tenantID (minuteBucketOf eventTime))

/-- The `request_generation` plan built for a REPLY/MESSAGE intent
(service.go lines 107-131). -/
def generationPlan (ev : Event) (authzReason : String) (intent : Intent) :
    ResponsePlan :=
  { v := ContractVersion
    planID := NewPlanID ev.tenantID ev.eventID
    tenantID := ev.tenantID
    roomID := ev.roomID
    actions := [
      { type := ActionRequestGeneration
        actionID := NewActionID (NewPlanID ev.tenantID ev.eventID)
          ActionRequestGeneration 0
        target := [("room_id", ev.roomID)]
        payload := [("intent", intent.str), ("event_id", ev.eventID),
          ("text", ev.content.text)] }]
    policyDecisions := [
      { stage := "gate", result := "allow", reasonCode := "" },
      { stage := "authz", result := "allow", reasonCode := authzReason },
      { stage := "planner", result := "allow", reasonCode := intent.str }] }

/-- The pending-generation record inserted for a REPLY/MESSAGE plan
(service.go lines 133-140). -/
def pendingOf (ev : Event) (plan : ResponsePlan) (intent : Intent) :
    PendingGeneration :=
  { TenantID := ev.tenantID
    RoomID := ev.roomID
    PlanID := plan.planID
    ActionID := ((plan.actions.headD
      { type := "", actionID := "", target := [], payload := [] }).actionID)
    Kind := intent.str
    ReplyTo := ev.content.replyTo }

/-- Go `Service.ProcessEvent` (service.go lines 39-158).  The authorization
provider is the function `authz`; `auditOk` is whether the audit sink's
`Append` succeeds (its error is discarded by the source at every call site);
`now`/`nowStr` are the wall clock as an instant and as the RFC3339Nano string
`s.nowFn()` formats into audit records.  Go's `switch intent` default arm
("planner_unknown") is unreachable for the three-valued `Intent` and has no
counterpart here. -/
def ProcessEvent (gcfg : GateConfig) (pcfg : PlannerConfig)
    (authz : Event → Decision) (auditOk : Bool) (now : Int) (nowStr : String)
    (st : ServiceState) (ev : Event) : PEOut :=
  match ev.Validate with
  | .error e => { result := .error e, state := st
                  trace := ⟨.validationError, false, false⟩ }
  | .ok _ =>
    match st.store.GetIdempotency ev.tenantID ev.eventID with
    | some p =>
      let r : Record :=
        { AuditID := NewActionID p.planID "audit" 0, TenantID := ev.tenantID
          CorrelationID := ev.eventID, Action := "process_event"
          Result := "idempotency_hit", ReasonCode := "idempotency_hit"
          TS := nowStr, PlanID := p.planID }
      { result := .ok p
        state := { st with auditLog := appendAudit auditOk st.auditLog r }
        trace := ⟨.idempotencyHit, false, false⟩ }
    | none =>
      let eventTime := eventTimeOf now ev
      let roomAnd := st.store.GetRoomState ev.tenantID ev.roomID
      let room := roomAnd.1
      let store1 := roomAnd.2
      let minuteBucket := minuteBucketOf eventTime
      let tenantCount := store1.TenantRateCount ev.tenantID minuteBucket
      let gateResult := Evaluate gcfg room eventTime tenantCount
      if gateResult.Allowed = false then
        let plan := DoNothingPlan ev.tenantID ev.roomID ev.eventID gateResult.ReasonCode
        let store2 := store1.PutIdempotency ev.tenantID ev.eventID plan
        let r : Record :=
          { AuditID := NewActionID plan.planID "audit" 0, TenantID := ev.tenantID
            CorrelationID := ev.eventID, Action := "gate", Result := "deny"
            ReasonCode := gateResult.ReasonCode, TS := nowStr, PlanID := plan.planID }
        { result := .ok plan
          state := { store := store2, auditLog := appendAudit auditOk st.auditLog r }
          trace := ⟨.gateDeny, false, false⟩ }
      else
        let authzDecision := authz ev
        if authzDecision.Allow = false then
          let plan := DoNothingPlan ev.tenantID ev.roomID ev.eventID
            authzDecision.ReasonCode
          let store2 := store1.PutIdempotency ev.tenantID ev.eventID plan
          let r : Record :=
            { AuditID := NewActionID plan.planID "audit" 0, TenantID := ev.tenantID
              CorrelationID := ev.eventID, Action := "authz", Result := "deny"
              ReasonCode := authzDecision.ReasonCode, TS := nowStr
              PlanID := plan.planID }
          { result := .ok plan
            state := { store := store2, auditLog := appendAudit auditOk st.auditLog r }
            trace := ⟨.authzDeny, true, false⟩ }
        else
          let intent := Decide pcfg ev
          let planStore : ResponsePlan × MemoryStore :=
            match intent with
            | .IGNORE =>
              (DoNothingPlan ev.tenantID ev.roomID ev.eventID "planner_ignore", store1)
            | .REPLY =>
              let plan := generationPlan ev authzDecision.ReasonCode .REPLY
              (plan, store1.PutPendingGeneration (pendingOf ev plan .REPLY))
            | .MESSAGE =>
              let plan := generationPlan ev authzDecision.ReasonCode .MESSAGE
              (plan, store1.PutPendingGeneration (pendingOf ev plan .MESSAGE))
          let plan := planStore.1
          let store3 := ((planStore.2.IncrementTenantRate ev.tenantID
            minuteBucket).PutIdempotency ev.tenantID ev.eventID plan)
          let r : Record :=
            { AuditID := NewActionID plan.planID "audit" 0, TenantID := ev.tenantID
              CorrelationID := ev.eventID, Action := "process_event", Result := "ok"
              ReasonCode := ((plan.actions.headD
                { type := "", actionID := "", target := [], payload := [] }).type)
              TS := nowStr, PlanID := plan.planID }
          { result := .ok plan
            state := { store := store3, auditLog := appendAudit auditOk st.auditLog r }
            trace := ⟨.accepted, true, true⟩ }

/-- One call's inputs when running a sequence of `ProcessEvent` calls. -/
structure CallInput where
  now : Int
  nowStr : String
  ev : Event
deriving DecidableEq, Repr

/-- Run a sequence of `ProcessEvent` calls against one service, collecting
each call's event and trace. -/
def runEvents (gcfg : GateConfig) (pcfg : PlannerConfig)
    (authz : Event → Decision) (auditOk : Bool) :
    ServiceState → List CallInput → List (Event × PTrace) × ServiceState
  | st, [] => ([], st)
  | st, c :: rest =>
    let out := ProcessEvent gcfg pcfg authz auditOk c.now c.nowStr st c.ev
    let tl := runEvents gcfg pcfg authz auditOk out.state rest
    ((c.ev, out.trace) :: tl.1, tl.2)

/-- Whether a call's record is a tenant-rate increment performed while
processing the event keyed `(t, e)`. -/
def isIncrementFor (t e : String) (p : Event × PTrace) : Bool :=
  decide (p.1.tenantID = t) && decide (p.1.eventID = e) && p.2.incremented

/-- How many calls in a run incremented the tenant-rate bucket while
processing an event keyed `(t, e)`. -/
def countIncrementsFor (t e : String) (l : List (Event × PTrace)) : Nat :=
  (l.filter (isIncrementFor t e)).length

/-! ### Specification-side definitions and theorems -/

/-- The gate rules as the specification lists them (§4.3), in order: each is
a failing condition paired with its reason code. -/
def gateRuleChecks (cfg : GateConfig) (room : RoomState)
    (eventTime tenantCount : Int) : List (Bool × String) :=
  [(room.Generating, "gate_generating_lock"),
   (decide (cfg.CooldownMS > 0 ∧ room.LastSendAt ≠ 0 ∧
     eventTime < room.LastSendAt + cfg.CooldownMS), "gate_cooldown"),
   (decide (cfg.MaxQueue > 0 ∧ room.PendingQueueSize ≥ cfg.MaxQueue),
     "gate_backpressure"),
   (decide (cfg.TenantRateLimitPerMin > 0 ∧ tenantCount ≥ cfg.TenantRateLimitPerMin),
     "gate_tenant_rate_limit")]

/-- First-failing-rule semantics: deny with the first failing rule's reason,
allow when no rule fails. -/
def firstFailing : List (Bool × String) → GateResult
  | [] => { Allowed := true, ReasonCode := "" }
  | (b, reason) :: rest =>
    if b then { Allowed := false, ReasonCode := reason } else firstFailing rest

/-- C7: gate evaluation checks the four rules in the fixed order
generating-lock, cooldown, backpressure, tenant-rate-limit; the first
failing rule determines a deny with its reason code, otherwise the result
is allow.  `Evaluate` is a pure function of the room state, the event
timestamp and the tenant count, and the second conjunct shows that at the
service level the gate result is independent of the wall clock whenever the
event's `occurred_at` parses to a nonzero instant. -/
theorem gate_first_failing_rule_wins :
    (∀ (cfg : GateConfig) (room : RoomState) (eventTime tenantCount : Int),
      Evaluate cfg room eventTime tenantCount =
        firstFailing (gateRuleChecks cfg room eventTime tenantCount)) ∧
    (∀ (gcfg : GateConfig) (st : ServiceState) (now1 now2 : Int) (ev : Event),
      ev.tsValid = true → ev.tsMs ≠ 0 →
      gateResultOf gcfg st now1 ev = gateResultOf gcfg st now2 ev) := by
  constructor
  · intro cfg room eventTime tenantCount
    simp only [Evaluate, gateRuleChecks, firstFailing]
    by_cases h1 : room.Generating <;> simp [h1]
  · intro gcfg st now1 now2 ev hv hz
    simp [gateResultOf, eventTimeOf, Event.ParsedTS, hv, hz]

/-- Witness for `gate_first_failing_rule_wins` at a concrete event. -/
theorem gate_first_failing_rule_wins_witness :
    gateResultOf { CooldownMS := 3000, MaxQueue := 10, TenantRateLimitPerMin := 0 }
        { store := NewMemoryStore, auditLog := [] } 5
        { v := 0, eventID := "e1", tenantID := "t1", source := "slack", roomID := "r1"
          actor := { type := "human", id := "u1", roles := [] }
          content := { type := "text", text := "hi", replyTo := none }
          tsValid := true, tsMs := 1771027200000 } =
      gateResultOf { CooldownMS := 3000, MaxQueue := 10, TenantRateLimitPerMin := 0 }
        { store := NewMemoryStore, auditLog := [] } 77
        { v := 0, eventID := "e1", tenantID := "t1", source := "slack", roomID := "r1"
          actor := { type := "human", id := "u1", roles := [] }
          content := { type := "text", text := "hi", replyTo := none }
          tsValid := true, tsMs := 1771027200000 } :=
  gate_first_failing_rule_wins.2 _ _ 5 77 _ (by decide) (by decide)

/-- Whether the event has a reply-to that is non-empty after trimming white
space — the condition the source actually applies before short-circuiting
to REPLY. -/
def hasReplyToTrimmed (ev : Event) : Bool :=
  match ev.content.replyTo with
  | some r => decide (TrimSpace r ≠ "")
  | none => false

/-- The planner's intent rules as the specification lists them (§4.5),
first match wins, with the reply-to guard corrected to the trimmed
non-emptiness test the code performs. -/
def plannerSpec (cfg : PlannerConfig) (ev : Event) : Intent :=
  if hasReplyToTrimmed ev then .REPLY
  else if cfg.ReplyPolicy = "all" then .MESSAGE
  else if cfg.ReplyPolicy = "reply_only" then
    (if isMentioned ev.content.text then .REPLY else .IGNORE)
  else if cfg.ReplyPolicy = "mention_first" then
    (if isMentioned ev.content.text then .REPLY
     else if seededProbability ev.eventID < cfg.ReplyProbability then .MESSAGE
     else .IGNORE)
  else if cfg.ReplyPolicy = "probabilistic" then
    (if seededProbability ev.eventID < cfg.ReplyProbability then .MESSAGE
     else .IGNORE)
  else .IGNORE

/-- An event whose `reply_to` is the non-empty string `" "` (one space). -/
def evBlankReplyTo : Event :=
  { v := 0, eventID := "e1", tenantID := "t1", source := "slack", roomID := "r1"
    actor := { type := "human", id := "u1", roles := [] }
    content := { type := "text", text := "x", replyTo := some " " }
    tsValid := true, tsMs := 1771027200000 }

/-- C8 counterexample: the claim says a non-empty `reply_to` yields REPLY,
but for `reply_to = " "` (non-empty) under policy `"all"` the code trims the
value, treats it as absent, and yields MESSAGE. -/
theorem planner_nonempty_reply_to_not_reply :
    evBlankReplyTo.content.replyTo = some " " ∧ (" " : String) ≠ "" ∧
    Decide { ReplyPolicy := "all", ReplyProbability := 0 } evBlankReplyTo =
      .MESSAGE ∧
    Intent.MESSAGE ≠ Intent.REPLY := by
  refine ⟨rfl, by decide, by decide, by decide⟩

/-- C8 amended: the planner follows the spec's first-match rules with the
reply-to guard being "non-empty after trimming white space", and the
decision is deterministic: it depends only on the event's id and content
(for a fixed config). -/
theorem planner_first_match_rules :
    (∀ (cfg : PlannerConfig) (ev : Event), Decide cfg ev = plannerSpec cfg ev) ∧
    (∀ (cfg : PlannerConfig) (e1 e2 : Event), e1.eventID = e2.eventID →
      e1.content = e2.content → Decide cfg e1 = Decide cfg e2) := by
  constructor
  · intro cfg ev
    by_cases hb : hasReplyToTrimmed ev
    · simp only [plannerSpec, hb, if_true, Decide]
      simp only [hasReplyToTrimmed] at hb
      cases hrt : ev.content.replyTo with
      | none => rw [hrt] at hb; simp at hb
      | some r =>
        rw [hrt] at hb
        simp only [decide_eq_true_eq] at hb
        simp [hb]
    · simp only [plannerSpec, hb, if_false, Decide]
      simp only [hasReplyToTrimmed] at hb
      cases hrt : ev.content.replyTo with
      | none => simp [decideByPolicy]
      | some r =>
        rw [hrt] at hb
        have hr : TrimSpace r = "" := by simpa using hb
        simp [hr, decideByPolicy]
  · intro cfg e1 e2 hid hc
    simp only [Decide, decideByPolicy, isMentioned, seededProbability, hid, hc]

/-- Witness for `planner_first_match_rules` at concrete events. -/
theorem planner_first_match_rules_witness :
    Decide { ReplyPolicy := "mention_first", ReplyProbability := 0 }
        { v := 0, eventID := "e9", tenantID := "t1", source := "slack", roomID := "r1"
          actor := { type := "human", id := "u1", roles := [] }
          content := { type := "text", text := "hello @arbiter", replyTo := none }
          tsValid := true, tsMs := 1 } =
      Decide { ReplyPolicy := "mention_first", ReplyProbability := 0 }
        { v := 0, eventID := "e9", tenantID := "t2", source := "discord", roomID := "r2"
          actor := { type := "service", id := "u2", roles := [] }
          content := { type := "text", text := "hello @arbiter", replyTo := none }
          tsValid := false, tsMs := 9 } :=
  planner_first_match_rules.2 _ _ _ (by decide) (by decide)

/-- Outcomes for successive authorization attempts: the first fails at the
transport, a second attempt would succeed with an allow decision. -/
def failedThenOk : List HTTPOutcome :=
  [.transportError, .response 200 (some ⟨0, "allow", "ok", "p1", 1000⟩)]

/-- C5: the code makes exactly one authorization attempt per call — there is
no retry loop and no circuit breaker in `ExternalHTTP.Authorize` (and
`config.AuthzConfig` has no retry or circuit-breaker fields).  After a
single transport failure the call immediately applies `fail_mode` even
though a second attempt would have returned an external allow. -/
theorem authz_single_attempt_no_retry :
    externalAuthorizeCall "deny" failedThenOk =
      ({ Allow := false, ReasonCode := "authz_error_deny",
         PolicyVer := "external-error", DecisionSrc := "external_http" }, 1) ∧
    externalAuthorize "deny" (.response 200 (some ⟨0, "allow", "ok", "p1", 1000⟩)) =
      { Allow := true, ReasonCode := "ok", PolicyVer := "p1",
        DecisionSrc := "external_http" } ∧
    (∀ (failMode : String) (outcomes : List HTTPOutcome),
      (externalAuthorizeCall failMode outcomes).2 = 1) :=
  ⟨by decide, by decide, fun _ _ => rfl⟩

/-- The two records the repository's own `TestJSONLLoggerAppendOnly` appends
(jsonl_test.go lines 22-25). -/
def auditR1 : Record :=
  { AuditID := "a1", TenantID := "t1", CorrelationID := "c1", Action := "x"
    Result := "ok", ReasonCode := "r", TS := "", PlanID := "" }

def auditR2 : Record :=
  { AuditID := "a2", TenantID := "t1", CorrelationID := "c2", Action := "y"
    Result := "ok", ReasonCode := "r", TS := "", PlanID := "" }

/-- C2: the audit writer has no hash chain.  `audit.Record` has no
`prev_hash` or `record_hash` fields and `JSONLLogger.Append` computes no
hashes: the exact serialized lines contain neither key, so no record's
`record_hash` can equal any SHA-256 and no `prev_hash` links records. -/
theorem audit_append_has_no_hash_chain :
    JSONLAppend (JSONLAppend [] "2026-02-14T00:00:00Z" auditR1)
        "2026-02-14T00:00:01Z" auditR2 =
      ["\x7b\"audit_id\":\"a1\",\"tenant_id\":\"t1\",\"correlation_id\":\"c1\",\"action\":\"x\",\"result\":\"ok\",\"reason_code\":\"r\",\"ts\":\"2026-02-14T00:00:00Z\"\x7d",
       "\x7b\"audit_id\":\"a2\",\"tenant_id\":\"t1\",\"correlation_id\":\"c2\",\"action\":\"y\",\"result\":\"ok\",\"reason_code\":\"r\",\"ts\":\"2026-02-14T00:00:01Z\"\x7d"] ∧
    ((JSONLAppend (JSONLAppend [] "2026-02-14T00:00:00Z" auditR1)
        "2026-02-14T00:00:01Z" auditR2).map fun s => Contains s "record_hash") =
      [false, false] ∧
    ((JSONLAppend (JSONLAppend [] "2026-02-14T00:00:00Z" auditR1)
        "2026-02-14T00:00:01Z" auditR2).map fun s => Contains s "prev_hash") =
      [false, false] := by
  refine ⟨by decide, by decide, by decide⟩

/-! ### C10: room-state invariant of the in-memory store -/

theorem alistGet_put_self [DecidableEq α] (m : AList α β) (k : α) (v : β) :
    alistGet (alistPut m k v) k = some v := by
  induction m with
  | nil => simp [alistPut, alistGet]
  | cons hd t ih =>
    obtain ⟨k0, v0⟩ := hd
    by_cases hk : k0 = k <;> simp [alistPut, alistGet, hk, ih]

theorem alistGet_put_ne [DecidableEq α] (m : AList α β) (k k' : α) (v : β)
    (h : ¬ k = k') : alistGet (alistPut m k v) k' = alistGet m k' := by
  have h' : ¬ k' = k := fun hh => h hh.symm
  induction m with
  | nil => simp [alistPut, alistGet, h]
  | cons hd t ih =>
    obtain ⟨k0, v0⟩ := hd
    by_cases hk : k0 = k
    · subst hk
      simp [alistPut, alistGet, h, h']
    · by_cases hk' : k0 = k' <;> simp [alistPut, alistGet, hk, hk', ih, h, h']

/-- The invariant of one room: the queue size is non-negative and the
generating flag holds exactly when the queue is non-empty. -/
def RoomInv (room : RoomState) : Prop :=
  0 ≤ room.PendingQueueSize ∧ (room.Generating = true ↔ 0 < room.PendingQueueSize)

/-- Every room stored in the in-memory store satisfies `RoomInv`. -/
def StoreRoomsInv (s : MemoryStore) : Prop :=
  ∀ k room, alistGet s.rooms k = some room → RoomInv room

theorem roomInv_default :
    RoomInv { Generating := false, PendingQueueSize := 0, LastSendAt := 0 } := by
  constructor <;> simp [RoomInv]

theorem roomInv_getD (s : MemoryStore) (h : StoreRoomsInv s) (k : String) :
    RoomInv ((alistGet s.rooms k).getD
      { Generating := false, PendingQueueSize := 0, LastSendAt := 0 }) := by
  cases hg : alistGet s.rooms k with
  | none => simpa using roomInv_default
  | some r => simpa using h k r hg

theorem roomInv_mk (g : Bool) (q las : Int) (h1 : 0 ≤ q)
    (h2 : g = true ↔ 0 < q) :
    RoomInv { Generating := g, PendingQueueSize := q, LastSendAt := las } :=
  ⟨h1, h2⟩

theorem getRoomState_preserves (s : MemoryStore) (t r : String)
    (h : StoreRoomsInv s) : StoreRoomsInv (s.GetRoomState t r).2 := by
  intro k room hk
  unfold MemoryStore.GetRoomState at hk
  cases hg : alistGet s.rooms (roomKey t r) with
  | some room0 =>
    simp only [hg] at hk
    exact h k room hk
  | none =>
    simp only [hg] at hk
    by_cases hkey : roomKey t r = k
    · subst hkey
      rw [alistGet_put_self] at hk
      cases hk
      exact roomInv_default
    · rw [alistGet_put_ne _ _ _ _ hkey] at hk
      exact h k room hk

theorem putPendingGeneration_preserves (s : MemoryStore) (p : PendingGeneration)
    (h : StoreRoomsInv s) : StoreRoomsInv (s.PutPendingGeneration p) := by
  have hold := roomInv_getD s h (roomKey p.TenantID p.RoomID)
  intro k room hk
  unfold MemoryStore.PutPendingGeneration at hk
  simp only at hk
  by_cases hkey : roomKey p.TenantID p.RoomID = k
  · subst hkey
    rw [alistGet_put_self] at hk
    cases hk
    obtain ⟨h1, _⟩ := hold
    apply roomInv_mk
    · omega
    · exact ⟨fun _ => by omega, fun _ => rfl⟩
  · rw [alistGet_put_ne _ _ _ _ hkey] at hk
    exact h k room hk

theorem consumePendingGeneration_preserves (s : MemoryStore)
    (tenantID actionID : String) (at_ : Int) (h : StoreRoomsInv s) :
    StoreRoomsInv (s.ConsumePendingGeneration tenantID actionID at_).2 := by
  intro k room hk
  unfold MemoryStore.ConsumePendingGeneration at hk
  cases hp : alistGet s.pending (pendingKey tenantID actionID) with
  | none =>
    simp only [hp] at hk
    exact h k room hk
  | some p =>
    simp only [hp] at hk
    have hold := roomInv_getD s h (roomKey tenantID p.RoomID)
    set old := (alistGet s.rooms (roomKey tenantID p.RoomID)).getD
      { Generating := false, PendingQueueSize := 0, LastSendAt := 0 } with hOld
    obtain ⟨h1, h2⟩ := hold
    by_cases hkey : roomKey tenantID p.RoomID = k
    · subst hkey
      rw [alistGet_put_self] at hk
      cases hk
      apply roomInv_mk
      · by_cases hq : old.PendingQueueSize > 0 <;> simp [hq] <;> omega
      · by_cases hq : old.PendingQueueSize > 0
        · by_cases hz : old.PendingQueueSize - 1 = 0
          · simp [hq, hz]
          · have hgen : old.Generating = true := h2.mpr hq
            simp only [hq, if_true, hz, if_false, hgen]
            exact ⟨fun _ => by omega, fun _ => trivial⟩
        · have hz : old.PendingQueueSize = 0 := by omega
          simp [hq, hz]
    · rw [alistGet_put_ne _ _ _ _ hkey] at hk
      exact h k room hk

/-- The mutating operations of the `MemoryStore` API. -/
inductive MemOp where
  | getRoomState (tenantID roomID : String)
  | putIdempotency (tenantID eventID : String) (plan : ResponsePlan)
  | putPendingGeneration (p : PendingGeneration)
  | consumePendingGeneration (tenantID actionID : String) (at_ : Int)
  | incrementTenantRate (tenantID : String) (minuteBucket : Int)
deriving DecidableEq, Repr

/-- Apply one store operation (discarding the read part of its result). -/
def applyOp (s : MemoryStore) : MemOp → MemoryStore
  | .getRoomState t r => (s.GetRoomState t r).2
  | .putIdempotency t e plan => s.PutIdempotency t e plan
  | .putPendingGeneration p => s.PutPendingGeneration p
  | .consumePendingGeneration t a at_ => (s.ConsumePendingGeneration t a at_).2
  | .incrementTenantRate t b => s.IncrementTenantRate t b

/-- Apply a sequence of store operations. -/
def applyOps (s : MemoryStore) (ops : List MemOp) : MemoryStore :=
  ops.foldl applyOp s

theorem applyOp_preserves (s : MemoryStore) (op : MemOp) (h : StoreRoomsInv s) :
    StoreRoomsInv (applyOp s op) := by
  cases op with
  | getRoomState t r => exact getRoomState_preserves s t r h
  | putIdempotency t e plan => exact h
  | putPendingGeneration p => exact putPendingGeneration_preserves s p h
  | consumePendingGeneration t a at_ =>
    exact consumePendingGeneration_preserves s t a at_ h
  | incrementTenantRate t b => exact h

theorem applyOps_preserves (ops : List MemOp) :
    ∀ s : MemoryStore, StoreRoomsInv s → StoreRoomsInv (applyOps s ops) := by
  induction ops with
  | nil => intro s h; exact h
  | cons op rest ih =>
    intro s h
    exact ih (applyOp s op) (applyOp_preserves s op h)

theorem storeRoomsInv_empty : StoreRoomsInv NewMemoryStore := by
  intro k room hk
  simp [NewMemoryStore, alistGet] at hk

/-- C10: starting from the empty store, any sequence of store operations
leaves every room satisfying `RoomInv` (queue size non-negative, generating
flag exactly when the queue is non-empty); and `PutPendingGeneration` and
`ConsumePendingGeneration` each preserve the invariant from any state
satisfying it. -/
theorem room_state_invariant :
    (∀ ops : List MemOp, StoreRoomsInv (applyOps NewMemoryStore ops)) ∧
    (∀ (s : MemoryStore) (p : PendingGeneration), StoreRoomsInv s →
      StoreRoomsInv (s.PutPendingGeneration p)) ∧
    (∀ (s : MemoryStore) (tenantID actionID : String) (at_ : Int),
      StoreRoomsInv s →
      StoreRoomsInv (s.ConsumePendingGeneration tenantID actionID at_).2) :=
  ⟨fun ops => applyOps_preserves ops NewMemoryStore storeRoomsInv_empty,
   putPendingGeneration_preserves,
   consumePendingGeneration_preserves⟩

/-- Witness for `room_state_invariant`: its invariant hypotheses are
discharged by the theorem itself on a concrete put-then-consume sequence. -/
theorem room_state_invariant_witness :
    StoreRoomsInv ((NewMemoryStore.PutPendingGeneration
        { TenantID := "t1", RoomID := "r1", PlanID := "p1", ActionID := "a1",
          Kind := "REPLY", ReplyTo := none }).ConsumePendingGeneration
      "t1" "a1" 5).2 :=
  room_state_invariant.2.2 _ "t1" "a1" 5
    (room_state_invariant.2.1 _ _ (room_state_invariant.1 []))

/-! ### Service-level lemmas and theorems -/

/-- Characterization of the instrumentation of one `ProcessEvent` call. -/
theorem processEvent_trace (gcfg : GateConfig) (pcfg : PlannerConfig)
    (authz : Event → Decision) (auditOk : Bool) (now : Int) (nowStr : String)
    (st : ServiceState) (ev : Event) :
    (ProcessEvent gcfg pcfg authz auditOk now nowStr st ev).trace =
      (match ev.Validate with
       | .error _ => ⟨.validationError, false, false⟩
       | .ok _ =>
         match st.store.GetIdempotency ev.tenantID ev.eventID with
         | some _ => ⟨.idempotencyHit, false, false⟩
         | none =>
           if (gateResultOf gcfg st now ev).Allowed = false then
             ⟨.gateDeny, false, false⟩
           else if (authz ev).Allow = false then ⟨.authzDeny, true, false⟩
           else ⟨.accepted, true, true⟩) := by
  unfold ProcessEvent gateResultOf
  cases hv : ev.Validate with
  | error e => simp
  | ok u =>
    simp only
    cases hi : st.store.GetIdempotency ev.tenantID ev.eventID with
    | some p => simp
    | none =>
      simp only
      by_cases hall : (Evaluate gcfg (st.store.GetRoomState ev.tenantID ev.roomID).1
          (eventTimeOf now ev)
          ((st.store.GetRoomState ev.tenantID ev.roomID).2.TenantRateCount
            ev.tenantID (minuteBucketOf (eventTimeOf now ev)))).Allowed = false
      · simp [hall]
      · simp only [hall, if_false]
        by_cases ha : (authz ev).Allow = false
        · simp [ha]
        · simp only [ha, if_false]
          cases hdec : Decide pcfg ev <;> simp

/-- C4: when the gate denies an event (for any reason code) the
authorization provider is not invoked for that call, and conversely every
call that invokes authorization had a gate allow. -/
theorem gate_deny_never_invokes_authz :
    ∀ (gcfg : GateConfig) (pcfg : PlannerConfig) (authz : Event → Decision)
      (auditOk : Bool) (now : Int) (nowStr : String) (st : ServiceState)
      (ev : Event),
      ((gateResultOf gcfg st now ev).Allowed = false →
        (ProcessEvent gcfg pcfg authz auditOk now nowStr st ev).trace.authzInvoked =
          false) ∧
      ((ProcessEvent gcfg pcfg authz auditOk now nowStr st ev).trace.authzInvoked =
          true →
        (gateResultOf gcfg st now ev).Allowed = true) := by
  intro gcfg pcfg authz auditOk now nowStr st ev
  rw [processEvent_trace]
  cases hv : ev.Validate with
  | error e => simp
  | ok u =>
    cases hi : st.store.GetIdempotency ev.tenantID ev.eventID with
    | some p => simp
    | none =>
      by_cases hall : (gateResultOf gcfg st now ev).Allowed = false
      · simp [hall]
      · by_cases ha : (authz ev).Allow = false <;>
          simp_all [Bool.not_eq_false]

/-- Witness for `gate_deny_never_invokes_authz`: an accepted first event
locks the room, so a second event is gate-denied and authorization is not
invoked for it; for the first event authorization did run and the gate had
allowed. -/
theorem gate_deny_never_invokes_authz_witness :
    (ProcessEvent { CooldownMS := 3000, MaxQueue := 10, TenantRateLimitPerMin := 0 }
        { ReplyPolicy := "mention_first", ReplyProbability := 0 } builtinAuthorize
        true 6 "t1s"
        (ProcessEvent { CooldownMS := 3000, MaxQueue := 10, TenantRateLimitPerMin := 0 }
          { ReplyPolicy := "mention_first", ReplyProbability := 0 } builtinAuthorize
          true 5 "t0s" { store := NewMemoryStore, auditLog := [] }
          { v := 0, eventID := "e1", tenantID := "t1", source := "slack"
            roomID := "r1", actor := { type := "human", id := "u1", roles := [] }
            content := { type := "text", text := "hi @arbiter", replyTo := none }
            tsValid := true, tsMs := 1771027200000 }).state
        { v := 0, eventID := "e2", tenantID := "t1", source := "slack"
          roomID := "r1", actor := { type := "human", id := "u1", roles := [] }
          content := { type := "text", text := "hi @arbiter", replyTo := none }
          tsValid := true, tsMs := 1771027201000 }).trace.authzInvoked = false ∧
    (gateResultOf { CooldownMS := 3000, MaxQueue := 10, TenantRateLimitPerMin := 0 }
        { store := NewMemoryStore, auditLog := [] } 5
        { v := 0, eventID := "e1", tenantID := "t1", source := "slack"
          roomID := "r1", actor := { type := "human", id := "u1", roles := [] }
          content := { type := "text", text := "hi @arbiter", replyTo := none }
          tsValid := true, tsMs := 1771027200000 }).Allowed = true :=
  ⟨(gate_deny_never_invokes_authz _ _ builtinAuthorize true 6 "t1s" _ _).1 (by decide),
   (gate_deny_never_invokes_authz _ { ReplyPolicy := "mention_first", ReplyProbability := 0 }
      builtinAuthorize true 5 "t0s" _ _).2 (by decide)⟩

/-- C6: the service discards the audit sink's error (`_ = s.audit.Append`)
on every path: the call's result does not depend on whether the audit append
succeeds, and a validated event still gets a plan (never an
`internal.audit_write_failed` error) when the append fails. -/
theorem audit_append_failure_is_ignored :
    ∀ (gcfg : GateConfig) (pcfg : PlannerConfig) (authz : Event → Decision)
      (now : Int) (nowStr : String) (st : ServiceState) (ev : Event),
      (ProcessEvent gcfg pcfg authz false now nowStr st ev).result =
        (ProcessEvent gcfg pcfg authz true now nowStr st ev).result ∧
      (ev.Validate = .ok () →
        ∃ p, (ProcessEvent gcfg pcfg authz false now nowStr st ev).result = .ok p) := by
  intro gcfg pcfg authz now nowStr st ev
  unfold ProcessEvent
  cases hv : ev.Validate with
  | error e => simp [hv]
  | ok u =>
    simp only
    cases hi : st.store.GetIdempotency ev.tenantID ev.eventID with
    | some p => simp
    | none =>
      simp only
      by_cases hall : (Evaluate gcfg (st.store.GetRoomState ev.tenantID ev.roomID).1
          (eventTimeOf now ev)
          ((st.store.GetRoomState ev.tenantID ev.roomID).2.TenantRateCount
            ev.tenantID (minuteBucketOf (eventTimeOf now ev)))).Allowed = false
      · simp [hall]
      · simp only [hall, if_false]
        by_cases ha : (authz ev).Allow = false
        · simp [ha]
        · simp only [ha, if_false]
          cases hdec : Decide pcfg ev <;> simp

/-- The default gate configuration (`config.Default()`). -/
def gcfgDefault : GateConfig :=
  { CooldownMS := 3000, MaxQueue := 10, TenantRateLimitPerMin := 0 }

/-- The default planner configuration (`config.Default()`). -/
def pcfgDefault : PlannerConfig :=
  { ReplyPolicy := "mention_first", ReplyProbability := 0 }

/-- A valid event mentioning the bot (spec §8 scenario A). -/
def evA : Event :=
  { v := 0, eventID := "e1", tenantID := "t1", source := "slack", roomID := "r1"
    actor := { type := "human", id := "u1", roles := [] }
    content := { type := "text", text := "hi @arbiter", replyTo := none }
    tsValid := true, tsMs := 1771027200000 }

/-- The empty service state (fresh `MemoryStore`, empty audit sink). -/
def stEmpty : ServiceState :=
  { store := NewMemoryStore, auditLog := [] }

/-- First processing of `evA` from the empty state. -/
def outA : PEOut :=
  ProcessEvent gcfgDefault pcfgDefault builtinAuthorize true 5 "t0s" stEmpty evA

/-- A replay of `evA`'s idempotency key `(t1, e1)` with a different payload
(the text changed from `"hi @arbiter"` to `"hi"`). -/
def evAConflict : Event :=
  { evA with content := { type := "text", text := "hi", replyTo := none } }

/-- The second call: same `(tenant_id, event_id)`, mismatched payload. -/
def outB : PEOut :=
  ProcessEvent gcfgDefault pcfgDefault builtinAuthorize true 6 "t1s" outA.state
    evAConflict

/-- Witness for `audit_append_failure_is_ignored`: with a failing audit sink
the accepted event still yields a plan. -/
theorem audit_append_failure_is_ignored_witness :
    (ProcessEvent gcfgDefault pcfgDefault builtinAuthorize false 5 "t0s" stEmpty
        evA).result =
      (ProcessEvent gcfgDefault pcfgDefault builtinAuthorize true 5 "t0s" stEmpty
        evA).result ∧
    ∃ p, (ProcessEvent gcfgDefault pcfgDefault builtinAuthorize false 5 "t0s"
        stEmpty evA).result = .ok p :=
  ⟨(audit_append_failure_is_ignored gcfgDefault pcfgDefault builtinAuthorize
      5 "t0s" stEmpty evA).1,
   (audit_append_failure_is_ignored gcfgDefault pcfgDefault builtinAuthorize
      5 "t0s" stEmpty evA).2 (by decide)⟩

/-- C1: replaying the key `(t1, e1)` with a different payload does not fail
with `conflict.payload_mismatch`: `ProcessEvent` performs no fingerprint
comparison (it stores none) and simply returns the cached plan of the first
call through the idempotency-hit path. -/
theorem payload_mismatch_returns_cached_plan :
    outB.result = outA.result ∧ outB.trace.path = .idempotencyHit ∧
    evAConflict.content ≠ evA.content ∧ evAConflict.tenantID = evA.tenantID ∧
    evAConflict.eventID = evA.eventID ∧ outA.trace.path = .accepted := by
  refine ⟨by decide, by decide, by decide, by decide, by decide, by decide⟩

/-- C3: the complete response plan returned for scenario A's event.  The
`ResponsePlan` struct (types.go lines 94-102) has fields `v`, `plan_id`,
`tenant_id`, `room_id`, `actions`, `policy_decisions`, `debug` only: no
`decision` object and no `evaluation_time` field exists anywhere in the
plan, so the plan cannot carry `decision.evaluation_time = occurred_at`. -/
theorem plan_has_no_evaluation_time_field :
    outA.result = .ok
      { v := 0, planID := NewPlanID "t1" "e1", tenantID := "t1", roomID := "r1"
        actions := [
          { type := ActionRequestGeneration
            actionID := NewActionID (NewPlanID "t1" "e1") ActionRequestGeneration 0
            target := [("room_id", "r1")]
            payload := [("intent", "REPLY"), ("event_id", "e1"),
              ("text", "hi @arbiter")] }]
        policyDecisions := [
          { stage := "gate", result := "allow", reasonCode := "" },
          { stage := "authz", result := "allow", reasonCode := "builtin_allow_all" },
          { stage := "planner", result := "allow", reasonCode := "REPLY" }] } := by
  decide

/-! ### C9: the tenant-rate bucket is incremented at most once per key -/

theorem alistGet_put_isSome [DecidableEq α] (m : AList α β) (k k' : α) (v : β)
    (h : (alistGet m k').isSome = true) :
    (alistGet (alistPut m k v) k').isSome = true := by
  by_cases hk : k = k'
  · subst hk
    rw [alistGet_put_self]
    rfl
  · rw [alistGet_put_ne _ _ _ _ hk]
    exact h

theorem getIdempotency_getRoomState (s : MemoryStore) (a b t e : String) :
    (s.GetRoomState a b).2.GetIdempotency t e = s.GetIdempotency t e := by
  unfold MemoryStore.GetRoomState MemoryStore.GetIdempotency
  cases hg : alistGet s.rooms (roomKey a b) <;> simp [hg]

theorem getIdempotency_putPendingGeneration (s : MemoryStore)
    (p : PendingGeneration) (t e : String) :
    (s.PutPendingGeneration p).GetIdempotency t e = s.GetIdempotency t e := rfl

theorem getIdempotency_incrementTenantRate (s : MemoryStore) (a : String)
    (b : Int) (t e : String) :
    (s.IncrementTenantRate a b).GetIdempotency t e = s.GetIdempotency t e := rfl

theorem getIdempotency_putIdempotency_isSome (s : MemoryStore)
    (a b t e : String) (plan : ResponsePlan)
    (h : (s.GetIdempotency t e).isSome = true) :
    ((s.PutIdempotency a b plan).GetIdempotency t e).isSome = true := by
  unfold MemoryStore.PutIdempotency MemoryStore.GetIdempotency at *
  exact alistGet_put_isSome _ _ _ _ h

/-- Once an idempotency record exists for a key, it still exists after any
further `ProcessEvent` call (for any event). -/
theorem processEvent_getIdem_mono (gcfg : GateConfig) (pcfg : PlannerConfig)
    (authz : Event → Decision) (auditOk : Bool) (now : Int) (nowStr : String)
    (st : ServiceState) (ev : Event) (t e : String)
    (h : (st.store.GetIdempotency t e).isSome = true) :
    (((ProcessEvent gcfg pcfg authz auditOk now nowStr st ev).state.store.GetIdempotency
      t e).isSome) = true := by
  unfold ProcessEvent
  cases hv : ev.Validate with
  | error _ => simpa using h
  | ok u =>
    simp only
    cases hi : st.store.GetIdempotency ev.tenantID ev.eventID with
    | some p => simpa using h
    | none =>
      simp only
      have h1 : (((st.store.GetRoomState ev.tenantID ev.roomID).2.GetIdempotency
          t e).isSome) = true := by
        rw [getIdempotency_getRoomState]
        exact h
      by_cases hall : (Evaluate gcfg (st.store.GetRoomState ev.tenantID ev.roomID).1
          (eventTimeOf now ev)
          ((st.store.GetRoomState ev.tenantID ev.roomID).2.TenantRateCount
            ev.tenantID (minuteBucketOf (eventTimeOf now ev)))).Allowed = false
      · simp only [hall, if_true]
        apply getIdempotency_putIdempotency_isSome
        exact h1
      · simp only [hall, if_false]
        by_cases ha : (authz ev).Allow = false
        · simp only [ha, if_true]
          apply getIdempotency_putIdempotency_isSome
          exact h1
        · simp only [ha, if_false]
          cases hdec : Decide pcfg ev <;> simp only [hdec] <;>
          · apply getIdempotency_putIdempotency_isSome
            exact h1

/-- A call that incremented the tenant-rate bucket persisted an idempotency
record under its event's key. -/
theorem processEvent_incremented_sets_key (gcfg : GateConfig)
    (pcfg : PlannerConfig) (authz : Event → Decision) (auditOk : Bool)
    (now : Int) (nowStr : String) (st : ServiceState) (ev : Event)
    (h : (ProcessEvent gcfg pcfg authz auditOk now nowStr st ev).trace.incremented =
      true) :
    (((ProcessEvent gcfg pcfg authz auditOk now nowStr st ev).state.store.GetIdempotency
      ev.tenantID ev.eventID).isSome) = true := by
  unfold ProcessEvent at *
  cases hv : ev.Validate with
  | error _ => rw [hv] at h; simp at h
  | ok u =>
    rw [hv] at h
    simp only at h ⊢
    cases hi : st.store.GetIdempotency ev.tenantID ev.eventID with
    | some p => rw [hi] at h; simp at h
    | none =>
      rw [hi] at h
      simp only at h ⊢
      by_cases hall : (Evaluate gcfg (st.store.GetRoomState ev.tenantID ev.roomID).1
          (eventTimeOf now ev)
          ((st.store.GetRoomState ev.tenantID ev.roomID).2.TenantRateCount
            ev.tenantID (minuteBucketOf (eventTimeOf now ev)))).Allowed = false
      · simp [hall] at h
      · simp only [hall, if_false] at h ⊢
        by_cases ha : (authz ev).Allow = false
        · simp [ha] at h
        · simp only [ha, if_false] at h ⊢
          cases hdec : Decide pcfg ev <;>
            simp only [hdec] <;>
            · unfold MemoryStore.PutIdempotency MemoryStore.GetIdempotency
              simp [alistGet_put_self]

/-- A call whose key already has an idempotency record does not increment. -/
theorem processEvent_hit_no_increment (gcfg : GateConfig) (pcfg : PlannerConfig)
    (authz : Event → Decision) (auditOk : Bool) (now : Int) (nowStr : String)
    (st : ServiceState) (ev : Event)
    (h : (st.store.GetIdempotency ev.tenantID ev.eventID).isSome = true) :
    (ProcessEvent gcfg pcfg authz auditOk now nowStr st ev).trace.incremented =
      false := by
  rw [processEvent_trace]
  cases hv : ev.Validate with
  | error _ => simp
  | ok u =>
    cases hi : st.store.GetIdempotency ev.tenantID ev.eventID with
    | some p => simp
    | none => rw [hi] at h; simp at h

/-- A call increments only on the accepted (plan-persistence) path. -/
theorem processEvent_increment_only_accepted (gcfg : GateConfig)
    (pcfg : PlannerConfig) (authz : Event → Decision) (auditOk : Bool)
    (now : Int) (nowStr : String) (st : ServiceState) (ev : Event)
    (h : (ProcessEvent gcfg pcfg authz auditOk now nowStr st ev).trace.incremented =
      true) :
    (ProcessEvent gcfg pcfg authz auditOk now nowStr st ev).trace.path =
      .accepted := by
  rw [processEvent_trace] at h ⊢
  cases hv : ev.Validate with
  | error e0 => rw [hv] at h; simp at h
  | ok u =>
    rw [hv] at h
    simp only at h ⊢
    cases hi : st.store.GetIdempotency ev.tenantID ev.eventID with
    | some p => rw [hi] at h; simp at h
    | none =>
      rw [hi] at h
      simp only at h ⊢
      by_cases hall : (gateResultOf gcfg st now ev).Allowed = false
      · simp [hall] at h
      · by_cases ha : (authz ev).Allow = false
        · simp [hall, ha] at h
        · simp [hall, ha]

theorem countIncrementsFor_cons (t e : String) (p : Event × PTrace)
    (l : List (Event × PTrace)) :
    countIncrementsFor t e (p :: l) =
      (if isIncrementFor t e p then 1 else 0) + countIncrementsFor t e l := by
  unfold countIncrementsFor
  by_cases hf : isIncrementFor t e p
  · simp [List.filter_cons, hf]
    omega
  · simp [List.filter_cons, hf]

theorem run_count_zero (gcfg : GateConfig) (pcfg : PlannerConfig)
    (authz : Event → Decision) (auditOk : Bool) (t e : String) :
    ∀ (calls : List CallInput) (st : ServiceState),
      (st.store.GetIdempotency t e).isSome = true →
      countIncrementsFor t e
        (runEvents gcfg pcfg authz auditOk st calls).1 = 0 := by
  intro calls
  induction calls with
  | nil => intro st _; simp [runEvents, countIncrementsFor]
  | cons c rest ih =>
    intro st h
    simp only [runEvents]
    rw [countIncrementsFor_cons]
    have hrest := ih (ProcessEvent gcfg pcfg authz auditOk c.now c.nowStr st c.ev).state
      (processEvent_getIdem_mono gcfg pcfg authz auditOk c.now c.nowStr st c.ev t e h)
    have hhead : isIncrementFor t e
        (c.ev, (ProcessEvent gcfg pcfg authz auditOk c.now c.nowStr st c.ev).trace) =
        false := by
      by_cases hmt : c.ev.tenantID = t
      · by_cases hme : c.ev.eventID = e
        · have hkey : (st.store.GetIdempotency c.ev.tenantID c.ev.eventID).isSome =
              true := by rw [hmt, hme]; exact h
          have := processEvent_hit_no_increment gcfg pcfg authz auditOk c.now
            c.nowStr st c.ev hkey
          simp [isIncrementFor, this]
        · simp [isIncrementFor, hme]
      · simp [isIncrementFor, hmt]
    rw [hhead]
    simpa using hrest

theorem run_count_le_one (gcfg : GateConfig) (pcfg : PlannerConfig)
    (authz : Event → Decision) (auditOk : Bool) (t e : String) :
    ∀ (calls : List CallInput) (st : ServiceState),
      countIncrementsFor t e
        (runEvents gcfg pcfg authz auditOk st calls).1 ≤ 1 := by
  intro calls
  induction calls with
  | nil => intro st; simp [runEvents, countIncrementsFor]
  | cons c rest ih =>
    intro st
    simp only [runEvents]
    rw [countIncrementsFor_cons]
    by_cases hf : isIncrementFor t e
      (c.ev, (ProcessEvent gcfg pcfg authz auditOk c.now c.nowStr st c.ev).trace)
    · have hcomp : (c.ev.tenantID = t ∧ c.ev.eventID = e) ∧
          (ProcessEvent gcfg pcfg authz auditOk c.now c.nowStr st c.ev).trace.incremented =
            true := by
        simpa [isIncrementFor, Bool.and_eq_true, decide_eq_true_eq] using hf
      have hkey := processEvent_incremented_sets_key gcfg pcfg authz auditOk c.now
        c.nowStr st c.ev hcomp.2
      rw [hcomp.1.1, hcomp.1.2] at hkey
      have hzero := run_count_zero gcfg pcfg authz auditOk t e rest
        (ProcessEvent gcfg pcfg authz auditOk c.now c.nowStr st c.ev).state hkey
      simp [hf, hzero]
    · have hrest := ih (ProcessEvent gcfg pcfg authz auditOk c.now c.nowStr st c.ev).state
      simpa [hf] using hrest

/-- C9: over any sequence of `ProcessEvent` calls against one service, the
tenant-rate bucket is incremented at most once for the key `(t, e)`, and
every increment happens on the accepted (plan-persistence) path — never on
idempotent replays and never on gate or authorization denials. -/
theorem tenant_rate_incremented_at_most_once :
    ∀ (gcfg : GateConfig) (pcfg : PlannerConfig) (authz : Event → Decision)
      (auditOk : Bool) (st : ServiceState) (calls : List CallInput) (t e : String),
      countIncrementsFor t e
        (runEvents gcfg pcfg authz auditOk st calls).1 ≤ 1 ∧
      (∀ pr ∈ (runEvents gcfg pcfg authz auditOk st calls).1,
        pr.2.incremented = true → pr.2.path = .accepted) := by
  intro gcfg pcfg authz auditOk st calls t e
  constructor
  · exact run_count_le_one gcfg pcfg authz auditOk t e calls st
  · clear t e
    induction calls generalizing st with
    | nil => simp [runEvents]
    | cons c rest ih =>
      simp only [runEvents, List.mem_cons]
      rintro pr (rfl | hmem)
      · exact processEvent_increment_only_accepted gcfg pcfg authz auditOk c.now
          c.nowStr st c.ev
      · exact ih _ pr hmem

/-- Witness for `tenant_rate_incremented_at_most_once` on a concrete run:
processing `evA` and then replaying it increments once, and the instrumented
increment of the first call lies on the accepted path. -/
theorem tenant_rate_incremented_at_most_once_witness :
    countIncrementsFor "t1" "e1"
      (runEvents gcfgDefault pcfgDefault builtinAuthorize true stEmpty
        [⟨5, "t0s", evA⟩, ⟨6, "t1s", evA⟩]).1 ≤ 1 ∧
    (evA, (⟨.accepted, true, true⟩ : PTrace)).2.path = .accepted :=
  ⟨(tenant_rate_incremented_at_most_once gcfgDefault pcfgDefault builtinAuthorize
      true stEmpty [⟨5, "t0s", evA⟩, ⟨6, "t1s", evA⟩] "t1" "e1").1,
   (tenant_rate_incremented_at_most_once gcfgDefault pcfgDefault builtinAuthorize
      true stEmpty [⟨5, "t0s", evA⟩, ⟨6, "t1s", evA⟩] "t1" "e1").2
    (evA, ⟨.accepted, true, true⟩) (by decide) (by decide)⟩

end Arbiter
